import Mathlib

/-!
Verification development for the stockbit-scraper response-normalization
layer.  The TypeScript source is embedded shallowly: JavaScript numbers are
modelled by `JSNum` (an exact rational together with the non-finite values
`NaN`, `Infinity`, `-Infinity`); strings are Lean `String`s; optional or
nullable fields are `Option`s.  The embedding is exact on the decimal values
that actually flow through the serializers; binary double rounding is not
modelled (every concrete value used in a theorem below is exactly
representable).
-/

/-- Model of a JavaScript number: NaN, the two infinities, or a finite value
(represented exactly as a rational). -/
inductive JSNum where
  | nan : JSNum
  | inf : JSNum
  | neginf : JSNum
  | fin : ℚ → JSNum
deriving DecidableEq, Repr

namespace JSNum

/-- JavaScript `<=` comparison: any comparison with NaN is false. -/
def le : JSNum → JSNum → Bool
  | nan, _ => false
  | _, nan => false
  | neginf, _ => true
  | _, neginf => false
  | _, inf => true
  | inf, _ => false
  | fin a, fin b => a ≤ b

/-- JavaScript `<` comparison: any comparison with NaN is false. -/
def lt : JSNum → JSNum → Bool
  | nan, _ => false
  | _, nan => false
  | _, neginf => false
  | neginf, _ => true
  | inf, _ => false
  | _, inf => true
  | fin a, fin b => a < b

/-- JavaScript `>` comparison. -/
def gt (a b : JSNum) : Bool := lt b a

/-- JavaScript `>=` comparison. -/
def ge (a b : JSNum) : Bool := le b a

/-- `Math.abs`. -/
def abs : JSNum → JSNum
  | nan => nan
  | inf => inf
  | neginf => inf
  | fin q => fin |q|

/-- Unary minus. -/
def neg : JSNum → JSNum
  | nan => nan
  | inf => neginf
  | neginf => inf
  | fin q => fin (-q)

/-- JavaScript `+` on numbers (exact on finite values; the IEEE rules for
the non-finite values). -/
def add : JSNum → JSNum → JSNum
  | nan, _ => nan
  | _, nan => nan
  | inf, neginf => nan
  | neginf, inf => nan
  | inf, _ => inf
  | _, inf => inf
  | neginf, _ => neginf
  | _, neginf => neginf
  | fin a, fin b => fin (a + b)

/-- JavaScript `-` on numbers. -/
def sub (a b : JSNum) : JSNum := add a (neg b)

/-- Division by a positive rational constant (the serializers only divide by
the powers of ten 10^3 .. 10^12). -/
def divC (a : JSNum) (c : ℚ) : JSNum :=
  match a with
  | nan => nan
  | inf => inf
  | neginf => neginf
  | fin q => fin (q / c)

end JSNum

/-- Left-pad a string with zeros to length `d`. -/
def zeroPad (d : Nat) (s : String) : String :=
  String.mk (List.replicate (d - s.length) '0') ++ s

/-- Decimal rendering of a non-negative integer scaled by `10^d`,
with exactly `d` digits after the point. -/
def scaledDecimalString (d : Nat) (n : Nat) : String :=
  if d = 0 then toString n
  else toString (n / 10 ^ d) ++ "." ++ zeroPad d (toString (n % 10 ^ d))

/-- `Number.prototype.toFixed(d)` on a finite value: rounds the magnitude to
`d` decimal places (half away from zero) and keeps the sign, so a negative
value rounding to zero renders as "-0", matching JavaScript.  Exact for
decimal inputs; the binary-double tie artifacts of `toFixed` are not
modelled (no call site below hits a tie). -/
def toFixedFin (d : Nat) (q : ℚ) : String :=
  let sign := if q < 0 then "-" else ""
  let n := (⌊|q| * 10 ^ d + 1 / 2⌋).toNat
  sign ++ scaledDecimalString d n

/-- `Number.prototype.toFixed(d)`. -/
def JSNum.toFixed (d : Nat) : JSNum → String
  | nan => "NaN"
  | inf => "Infinity"
  | neginf => "-Infinity"
  | fin q => toFixedFin d q

/-- Group a digit string in threes from the right with separator `sep`
(id-ID locale uses '.'). -/
def groupDigits (sep : Char) (s : String) : String :=
  let rec go : List Char → List Char
    | c1 :: c2 :: c3 :: rest@(_ :: _) => c1 :: c2 :: c3 :: sep :: go rest
    | l => l
  String.mk ((go s.data.reverse).reverse)

/-- `Number.prototype.toString()` on a finite value, modelled for values
whose magnitude has a finite decimal expansion of at most 20 digits
(truncating beyond that; JavaScript would instead print the shortest
round-tripping form of the nearest double). -/
def toStringFin (q : ℚ) : String :=
  let sign := if q < 0 then "-" else ""
  let n := (⌊|q| * 10 ^ 20⌋).toNat
  let ip := n / 10 ^ 20
  let fp := n % 10 ^ 20
  let fracDigits := (zeroPad 20 (toString fp)).data.reverse.dropWhile (· = '0')
  if fracDigits = [] then sign ++ toString ip
  else sign ++ toString ip ++ "." ++ String.mk fracDigits.reverse

/-- `Number.prototype.toString()`. -/
def JSNum.toStringJS : JSNum → String
  | nan => "NaN"
  | inf => "Infinity"
  | neginf => "-Infinity"
  | fin q => toStringFin q

/-- `toLocaleString("id-ID", { minimumFractionDigits: 0,
maximumFractionDigits: 2 })` on a finite value: thousands grouped with '.',
decimal comma, at most two fractional digits (half away from zero), trailing
fractional zeros dropped. -/
def toLocaleIdFin (q : ℚ) : String :=
  let sign := if q < 0 then "-" else ""
  let n := (⌊|q| * 100 + 1 / 2⌋).toNat
  let ip := groupDigits '.' (toString (n / 100))
  let fp := n % 100
  if fp = 0 then sign ++ ip
  else if fp % 10 = 0 then sign ++ ip ++ "," ++ toString (fp / 10)
  else sign ++ ip ++ "," ++ zeroPad 2 (toString fp)

/-- `toLocaleString("id-ID", ...)`; the id-ID rendering of the non-finite
values. -/
def JSNum.toLocaleId : JSNum → String
  | nan => "NaN"
  | inf => "∞"
  | neginf => "-∞"
  | fin q => toLocaleIdFin q

/-- Numeric value of a digit list, most significant first. -/
def digitsVal (ds : List Char) : Nat :=
  ds.foldl (fun a c => a * 10 + (c.toNat - '0'.toNat)) 0

/-- Optional leading sign: returns (isNegative, rest). -/
def splitSign : List Char → Bool × List Char
  | '-' :: t => (true, t)
  | '+' :: t => (false, t)
  | l => (false, l)

/-- Whether `p` is an initial segment of `l`. -/
def hasPrefixList : List Char → List Char → Bool
  | [], _ => true
  | _ :: _, [] => false
  | p :: ps, c :: cs => p == c && hasPrefixList ps cs

/-- Discrete outcome of the `parseFloat` grammar: NaN, a signed Infinity
literal, or a finite literal given by sign, integer-part digits value,
fraction digits value, fraction length and exponent. -/
inductive FloatParse where
  | nan : FloatParse
  | inf : Bool → FloatParse
  | finite : Bool → ℕ → ℕ → ℕ → ℤ → FloatParse
deriving DecidableEq, Repr

/-- The discrete part of JavaScript `parseFloat`: skip leading whitespace,
optional sign, then the longest prefix that is an `Infinity` literal or a
decimal mantissa with optional `e`/`E` exponent; trailing garbage is
ignored; NaN when no mantissa digits are found. -/
def parseFloatRepr (s : String) : FloatParse :=
  let (neg, l) := splitSign (s.data.dropWhile Char.isWhitespace)
  if hasPrefixList "Infinity".data l then .inf neg
  else
    let (intDigits, r1) := l.span Char.isDigit
    let (fracDigits, r2) :=
      match r1 with
      | '.' :: t => t.span Char.isDigit
      | _ => ([], r1)
    if intDigits.isEmpty && fracDigits.isEmpty then .nan
    else
      let e : ℤ :=
        match r2 with
        | c :: t =>
          if c == 'e' || c == 'E' then
            let (eneg, t1) := splitSign t
            let eDigits := (t1.span Char.isDigit).1
            if eDigits.isEmpty then 0
            else if eneg then -(digitsVal eDigits : ℤ) else (digitsVal eDigits : ℤ)
          else 0
        | [] => 0
      .finite neg (digitsVal intDigits) (digitsVal fracDigits) fracDigits.length e

/-- Numeric value of a parse outcome: `±(ip + fp/10^fracLen) · 10^e`. -/
def floatOfParse : FloatParse → JSNum
  | .nan => .nan
  | .inf neg => if neg then .neginf else .inf
  | .finite neg ip fp fracLen e =>
    let m : ℚ := (ip : ℚ) + (fp : ℚ) / 10 ^ fracLen
    let v : ℚ := m * (10 : ℚ) ^ e
    .fin (if neg then -v else v)

/-- Model of JavaScript `parseFloat`.  Exact-rational semantics (the
rounding of the result to binary double is not modelled). -/
def parseFloatJS (s : String) : JSNum := floatOfParse (parseFloatRepr s)

/-- Argument type of `parseScientific` in the source:
`string | number | undefined` (plus the `null` the body also guards). -/
inductive NumToken where
  | undef : NumToken
  | nullv : NumToken
  | str : String → NumToken
  | num : JSNum → NumToken
deriving DecidableEq, Repr

/-- The guard `isNaN(num) ? 0 : num` shared by both parsers. -/
def nanToZero (x : JSNum) : JSNum :=
  match x with
  | .nan => .fin 0
  | v => v

/-- Embedding of `parseScientific` (part_004 lines 210-215): absent, null
and empty inputs give 0; a number input is returned unchanged; otherwise the
string goes through `parseFloat`, with NaN degraded to 0. -/
def parseScientific : NumToken → JSNum
  | .undef => .fin 0
  | .nullv => .fin 0
  | .num v => v
  | .str s =>
    if s = "" then .fin 0
    else nanToZero (parseFloatJS s)

/-- Embedding of `parseNumber` (watchlist.ts lines 124-129): falsy input
(absent, null, empty string) gives 0; otherwise every '+' and ',' character
is stripped (the global regex replace) and the result parsed, with NaN
degraded to 0. -/
def parseNumber (value : Option String) : JSNum :=
  match value with
  | none => .fin 0
  | some s =>
    if s = "" then .fin 0
    else
      let cleaned := String.mk (s.data.filter fun c => !(c == '+' || c == ','))
      nanToZero (parseFloatJS cleaned)

/-- Embedding of `formatValue` (part_004 lines 178-195): suffix scaling by
thresholds on the absolute value, sign prepended separately. -/
def formatValue (value : JSNum) : String :=
  let absValue := value.abs
  let sign := if value.lt (.fin 0) then "-" else ""
  if absValue.ge (.fin (10 ^ 12)) then sign ++ (absValue.divC (10 ^ 12)).toFixed 2 ++ "T"
  else if absValue.ge (.fin (10 ^ 9)) then sign ++ (absValue.divC (10 ^ 9)).toFixed 2 ++ "B"
  else if absValue.ge (.fin (10 ^ 6)) then sign ++ (absValue.divC (10 ^ 6)).toFixed 2 ++ "M"
  else if absValue.ge (.fin (10 ^ 3)) then sign ++ (absValue.divC (10 ^ 3)).toFixed 2 ++ "K"
  else sign ++ absValue.toFixed 0

/-- Embedding of `formatPrice` (part_004 lines 200-205). -/
def formatPrice (value : JSNum) : String := value.toLocaleId

/-- Embedding of `formatDate` (part_004 lines 220-226): length-8 strings are
split as YYYY-MM-DD, everything else is returned unchanged. -/
def formatDate (dateStr : String) : String :=
  if dateStr = "" ∨ dateStr.length ≠ 8 then dateStr
  else
    String.mk (dateStr.data.take 4 ++
      '-' :: (dateStr.data.drop 4).take 2 ++
      '-' :: (dateStr.data.drop 6).take 2)

/-- Embedding of `formatVolume` (watchlist.ts lines 105-119): thresholds on
the signed value (no absolute value, no separate sign handling), with plain
`toString` below one thousand. -/
def formatVolume (volume : JSNum) : String :=
  if volume.ge (.fin (10 ^ 12)) then (volume.divC (10 ^ 12)).toFixed 2 ++ "T"
  else if volume.ge (.fin (10 ^ 9)) then (volume.divC (10 ^ 9)).toFixed 2 ++ "B"
  else if volume.ge (.fin (10 ^ 6)) then (volume.divC (10 ^ 6)).toFixed 2 ++ "M"
  else if volume.ge (.fin (10 ^ 3)) then (volume.divC (10 ^ 3)).toFixed 2 ++ "K"
  else volume.toStringJS

/-- Raw buy record (part_004 lines 46-56). -/
structure RawBrokerBuy where
  blot : String
  blotv : String
  bval : String
  bvalv : String
  netbs_broker_code : String
  netbs_buy_avg_price : String
  netbs_date : String
  netbs_stock_code : String
  type : String
deriving DecidableEq, Repr

/-- Raw sell record (part_004 lines 58-68). -/
structure RawBrokerSell where
  netbs_broker_code : String
  netbs_date : String
  netbs_sell_avg_price : String
  netbs_stock_code : String
  slot : String
  slotv : String
  sval : String
  svalv : String
  type : String
deriving DecidableEq, Repr

/-- Raw accumulation/distribution bucket (part_004 lines 39-44). -/
structure RawAccDistInfo where
  accdist : String
  amount : JSNum
  percent : JSNum
  vol : JSNum
deriving DecidableEq, Repr

/-- Raw bandar detector block (part_004 lines 23-37). -/
structure RawBandarDetector where
  average : JSNum
  avg : RawAccDistInfo
  avg5 : RawAccDistInfo
  broker_accdist : String
  number_broker_buysell : JSNum
  top1 : RawAccDistInfo
  top3 : RawAccDistInfo
  top5 : RawAccDistInfo
  top10 : RawAccDistInfo
  total_buyer : JSNum
  total_seller : JSNum
  value : JSNum
  volume : JSNum
deriving DecidableEq, Repr

/-- Raw broker summary (part_004 lines 11-15); the transaction arrays are
optional here to model the `|| []` guards at the use sites. -/
structure RawBrokerSummary where
  brokers_buy : Option (List RawBrokerBuy)
  brokers_sell : Option (List RawBrokerSell)
  symbol : String
deriving DecidableEq, Repr

/-- Payload of the raw broker-activity response (part_004 lines 9-20);
the source fields `from` and `to` are keywords in Lean and are embedded as
`from_` and `to_`. -/
structure RawBrokerData where
  bandar_detector : RawBandarDetector
  broker_summary : RawBrokerSummary
  from_ : String
  to_ : String
  broker_code : String
  broker_name : String
deriving DecidableEq, Repr

/-- Raw broker-activity response (part_004 lines 7-21). -/
structure RawBrokerActivityResponse where
  message : String
  data : RawBrokerData
deriving DecidableEq, Repr

/-- Serialized transaction (part_004 lines 71-97). -/
structure SerializedBrokerTransaction where
  stockCode : String
  brokerCode : String
  date : String
  type : String
  buyLot : JSNum
  buyValue : JSNum
  buyAvgPrice : JSNum
  sellLot : JSNum
  sellValue : JSNum
  sellAvgPrice : JSNum
  netLot : JSNum
  netValue : JSNum
  buyValueFormatted : String
  sellValueFormatted : String
  netValueFormatted : String
  buyAvgPriceFormatted : String
  sellAvgPriceFormatted : String
deriving DecidableEq, Repr

/-- Serialized accumulation/distribution bucket (the anonymous record
returned by `serializeAccDistInfo`, part_004 lines 297-304). -/
structure SerializedAccDistInfo where
  accDist : String
  amount : JSNum
  percent : JSNum
  volume : JSNum
deriving DecidableEq, Repr

/-- Serialized bandar detector (part_004 lines 99-144). -/
structure SerializedBandarDetector where
  averagePrice : JSNum
  totalValue : JSNum
  totalVolume : JSNum
  totalBuyers : JSNum
  totalSellers : JSNum
  brokerAccDist : String
  average : SerializedAccDistInfo
  average5Day : SerializedAccDistInfo
  top1 : SerializedAccDistInfo
  top3 : SerializedAccDistInfo
  top5 : SerializedAccDistInfo
  top10 : SerializedAccDistInfo
deriving DecidableEq, Repr

/-- Serialized broker activity (part_004 lines 146-173). -/
structure SerializedBrokerActivity where
  brokerCode : String
  brokerName : String
  dateFrom : String
  dateTo : String
  bandarDetector : SerializedBandarDetector
  buyTransactions : List SerializedBrokerTransaction
  totalBuyValue : JSNum
  totalBuyLot : JSNum
  sellTransactions : List SerializedBrokerTransaction
  totalSellValue : JSNum
  totalSellLot : JSNum
  netValue : JSNum
  netLot : JSNum
  totalBuyValueFormatted : String
  totalSellValueFormatted : String
  netValueFormatted : String
deriving DecidableEq, Repr

/-- Embedding of `serializeBuyTransaction` (part_004 lines 231-259). -/
def serializeBuyTransaction (raw : RawBrokerBuy) : SerializedBrokerTransaction :=
  let buyLot := parseScientific (.str raw.blot)
  let buyValue := parseScientific (.str raw.bval)
  let buyAvgPrice := parseScientific (.str raw.netbs_buy_avg_price)
  { stockCode := raw.netbs_stock_code
    brokerCode := raw.netbs_broker_code
    date := formatDate raw.netbs_date
    type := raw.type
    buyLot := buyLot
    buyValue := buyValue
    buyAvgPrice := buyAvgPrice
    sellLot := .fin 0
    sellValue := .fin 0
    sellAvgPrice := .fin 0
    netLot := buyLot
    netValue := buyValue
    buyValueFormatted := formatValue buyValue
    sellValueFormatted := "-"
    netValueFormatted := formatValue buyValue
    buyAvgPriceFormatted := formatPrice buyAvgPrice
    sellAvgPriceFormatted := "-" }

/-- Embedding of `serializeSellTransaction` (part_004 lines 264-292): lot
and value parsed then made non-negative with `Math.abs`; the net fields are
the negated magnitudes; the average price is passed through unnegated. -/
def serializeSellTransaction (raw : RawBrokerSell) : SerializedBrokerTransaction :=
  let sellLot := (parseScientific (.str raw.slot)).abs
  let sellValue := (parseScientific (.str raw.sval)).abs
  let sellAvgPrice := parseScientific (.str raw.netbs_sell_avg_price)
  { stockCode := raw.netbs_stock_code
    brokerCode := raw.netbs_broker_code
    date := formatDate raw.netbs_date
    type := raw.type
    buyLot := .fin 0
    buyValue := .fin 0
    buyAvgPrice := .fin 0
    sellLot := sellLot
    sellValue := sellValue
    sellAvgPrice := sellAvgPrice
    netLot := sellLot.neg
    netValue := sellValue.neg
    buyValueFormatted := "-"
    sellValueFormatted := formatValue sellValue
    netValueFormatted := formatValue sellValue.neg
    buyAvgPriceFormatted := "-"
    sellAvgPriceFormatted := formatPrice sellAvgPrice }

/-- Embedding of `serializeAccDistInfo` (part_004 lines 297-304). -/
def serializeAccDistInfo (raw : RawAccDistInfo) : SerializedAccDistInfo :=
  { accDist := raw.accdist
    amount := raw.amount
    percent := raw.percent
    volume := raw.vol }

/-- Embedding of `serializeBandarDetector` (part_004 lines 309-325). -/
def serializeBandarDetector (raw : RawBandarDetector) : SerializedBandarDetector :=
  { averagePrice := raw.average
    totalValue := raw.value
    totalVolume := raw.volume
    totalBuyers := raw.total_buyer
    totalSellers := raw.total_seller
    brokerAccDist := raw.broker_accdist
    average := serializeAccDistInfo raw.avg
    average5Day := serializeAccDistInfo raw.avg5
    top1 := serializeAccDistInfo raw.top1
    top3 := serializeAccDistInfo raw.top3
    top5 := serializeAccDistInfo raw.top5
    top10 := serializeAccDistInfo raw.top10 }

/-- JavaScript `Array.prototype.reduce((sum, x) => sum + f(x), 0)`. -/
def sumBy (f : α → JSNum) (l : List α) : JSNum :=
  l.foldl (fun sum t => sum.add (f t)) (.fin 0)

/-- Embedding of `serializeBrokerActivity` (part_004 lines 330-371). -/
def serializeBrokerActivity (raw : RawBrokerActivityResponse) : SerializedBrokerActivity :=
  let data := raw.data
  let summary := data.broker_summary
  let buyTransactions := (summary.brokers_buy.getD []).map serializeBuyTransaction
  let sellTransactions := (summary.brokers_sell.getD []).map serializeSellTransaction
  let totalBuyValue := sumBy (·.buyValue) buyTransactions
  let totalBuyLot := sumBy (·.buyLot) buyTransactions
  let totalSellValue := sumBy (·.sellValue) sellTransactions
  let totalSellLot := sumBy (·.sellLot) sellTransactions
  let netValue := totalBuyValue.sub totalSellValue
  let netLot := totalBuyLot.sub totalSellLot
  { brokerCode := data.broker_code
    brokerName := data.broker_name
    dateFrom := data.from_
    dateTo := data.to_
    bandarDetector := serializeBandarDetector data.bandar_detector
    buyTransactions := buyTransactions
    totalBuyValue := totalBuyValue
    totalBuyLot := totalBuyLot
    sellTransactions := sellTransactions
    totalSellValue := totalSellValue
    totalSellLot := totalSellLot
    netValue := netValue
    netLot := netLot
    totalBuyValueFormatted := formatValue totalBuyValue
    totalSellValueFormatted := formatValue totalSellValue
    netValueFormatted := formatValue netValue }

/-- Summary row (part_004 lines 376-385); the literal side tag is a plain
string here ("buy" or "sell"). -/
structure BrokerTransactionSummary where
  stockCode : String
  type : String
  side : String
  lot : JSNum
  value : JSNum
  avgPrice : JSNum
  valueFormatted : String
  avgPriceFormatted : String
deriving DecidableEq, Repr

/-- Return shape of `serializeBrokerActivitySummary` (part_004 lines
389-398). -/
structure BrokerActivitySummary where
  brokerCode : String
  brokerName : String
  date : String
  buys : List BrokerTransactionSummary
  sells : List BrokerTransactionSummary
  totalBuyValue : String
  totalSellValue : String
  netValue : String
deriving DecidableEq, Repr

/-- Embedding of `serializeBrokerActivitySummary` (part_004 lines 387-437):
an independent re-implementation of the parse/sign logic over the same raw
records. -/
def serializeBrokerActivitySummary (raw : RawBrokerActivityResponse) : BrokerActivitySummary :=
  let data := raw.data
  let summary := data.broker_summary
  let buys := (summary.brokers_buy.getD []).map fun b =>
    ({ stockCode := b.netbs_stock_code
       type := b.type
       side := "buy"
       lot := parseScientific (.str b.blot)
       value := parseScientific (.str b.bval)
       avgPrice := parseScientific (.str b.netbs_buy_avg_price)
       valueFormatted := formatValue (parseScientific (.str b.bval))
       avgPriceFormatted := formatPrice (parseScientific (.str b.netbs_buy_avg_price)) } :
      BrokerTransactionSummary)
  let sells := (summary.brokers_sell.getD []).map fun s =>
    ({ stockCode := s.netbs_stock_code
       type := s.type
       side := "sell"
       lot := (parseScientific (.str s.slot)).abs
       value := (parseScientific (.str s.sval)).abs
       avgPrice := parseScientific (.str s.netbs_sell_avg_price)
       valueFormatted := formatValue ((parseScientific (.str s.sval)).abs)
       avgPriceFormatted := formatPrice (parseScientific (.str s.netbs_sell_avg_price)) } :
      BrokerTransactionSummary)
  let totalBuy := sumBy (·.value) buys
  let totalSell := sumBy (·.value) sells
  { brokerCode := data.broker_code
    brokerName := data.broker_name
    date := data.from_
    buys := buys
    sells := sells
    totalBuyValue := formatValue totalBuy
    totalSellValue := formatValue totalSell
    netValue := formatValue (totalBuy.sub totalSell) }

/-- JavaScript `Math.max` on two numbers: NaN-propagating, else the larger
argument. -/
def JSNum.max2 (a b : JSNum) : JSNum :=
  if a = nan ∨ b = nan then nan else if JSNum.le a b then b else a

/-- JavaScript `Math.min` on two numbers: NaN-propagating, else the smaller
argument. -/
def JSNum.min2 (a b : JSNum) : JSNum :=
  if a = nan ∨ b = nan then nan else if JSNum.le a b then a else b

/-- `Math.max(...l)` (the spread call): -Infinity on the empty list. -/
def jsMaxList (l : List JSNum) : JSNum := l.foldl JSNum.max2 .neginf

/-- `Math.min(...l)` (the spread call): +Infinity on the empty list. -/
def jsMinList (l : List JSNum) : JSNum := l.foldl JSNum.min2 .inf

/-- Raw orderbook sub-object (watchlist.ts lines 40-43). -/
structure RawOrderbook where
  bid : String
  offer : String
deriving DecidableEq, Repr

/-- Raw corporate-action sub-object (watchlist.ts lines 44-48). -/
structure RawCorpAction where
  active : Bool
  icon : String
  text : String
deriving DecidableEq, Repr

/-- Raw stock item (watchlist.ts lines 23-54).  Fields that the serializer
guards with `|| []`, `?.` or `??` are embedded as `Option`s; the source
field `notation` is embedded as `notation_` (keyword clash). -/
structure RawStockItem where
  id : String
  symbol : String
  name : String
  last : String
  previous : String
  change : String
  percent : String
  volume : String
  prices : Option (List String)
  formatted_price : String
  icon_url : String
  exchange : String
  country : String
  type : String
  tradeable : Option Bool
  sequence_no : JSNum
  orderbook : Option RawOrderbook
  corp_action : Option RawCorpAction
  uma : Option Bool
  notations : List String
  notation_ : List String
  status : JSNum
deriving DecidableEq, Repr

/-- Serialized stock (watchlist.ts lines 57-89). -/
structure SerializedStock where
  symbol : String
  name : String
  exchange : String
  iconUrl : String
  lastPrice : JSNum
  previousClose : JSNum
  openPrice : JSNum
  highPrice : JSNum
  lowPrice : JSNum
  change : JSNum
  changePercent : JSNum
  isPositive : Bool
  isNegative : Bool
  volume : JSNum
  volumeFormatted : String
  intradayPrices : List JSNum
  bid : Option JSNum
  offer : Option JSNum
  hasCorporateAction : Bool
  isUma : Bool
  tradeable : Bool
deriving DecidableEq, Repr

/-- Embedding of `serializeStock` (watchlist.ts lines 134-184). -/
def serializeStock (raw : RawStockItem) : SerializedStock :=
  let lastPrice := parseNumber (some raw.last)
  let previousClose := parseNumber (some raw.previous)
  let change := parseNumber (some raw.change)
  let changePercent := parseNumber (some raw.percent)
  let volume := parseNumber (some raw.volume)
  let intradayPrices := (raw.prices.getD []).map fun p => parseNumber (some p)
  let openPrice := match intradayPrices with
    | [] => lastPrice
    | p :: _ => p
  let highPrice := if intradayPrices.length > 0 then jsMaxList intradayPrices else lastPrice
  let lowPrice := if intradayPrices.length > 0 then jsMinList intradayPrices else lastPrice
  { symbol := raw.symbol
    name := raw.name
    exchange := raw.exchange
    iconUrl := raw.icon_url
    lastPrice := lastPrice
    previousClose := previousClose
    openPrice := openPrice
    highPrice := highPrice
    lowPrice := lowPrice
    change := change
    changePercent := changePercent
    isPositive := change.gt (.fin 0)
    isNegative := change.lt (.fin 0)
    volume := volume
    volumeFormatted := formatVolume volume
    intradayPrices := intradayPrices
    bid := match raw.orderbook with
      | none => none
      | some ob => if ob.bid = "" then none else some (parseNumber (some ob.bid))
    offer := match raw.orderbook with
      | none => none
      | some ob => if ob.offer = "" then none else some (parseNumber (some ob.offer))
    hasCorporateAction := (raw.corp_action.map (·.active)).getD false
    isUma := raw.uma.getD false
    tradeable := raw.tradeable.getD true }

/-- DOM model: a parsed HTML node is a text node or an element with a tag
and an ordered child list.  `DOMParser.parseFromString` is treated as input
decoding; `parseHtmlTable` below operates on the resulting tree. -/
inductive HNode where
  | text : String → HNode
  | elem : String → List HNode → HNode

mutual

/-- `Node.textContent`: concatenation of all text descendants in document
order. -/
def textContent : HNode → String
  | .text s => s
  | .elem _ cs => textContentList cs

/-- `textContent` over a child list. -/
def textContentList : List HNode → String
  | [] => ""
  | c :: cs => textContent c ++ textContentList cs

end

mutual

/-- All descendant nodes of a node, preorder (document order), excluding
the node itself. -/
def descendants : HNode → List HNode
  | .text _ => []
  | .elem _ cs => descendantsList cs

/-- Preorder listing of a forest: each root followed by its descendants. -/
def descendantsList : List HNode → List HNode
  | [] => []
  | c :: cs => c :: descendants c ++ descendantsList cs

end

/-- Tag of an element node. -/
def elemTag : HNode → Option String
  | .text _ => none
  | .elem t _ => some t

/-- `querySelectorAll` for a tag predicate: the descendant elements whose
tag satisfies `p`, in document order. -/
def qsa (root : HNode) (p : String → Bool) : List HNode :=
  (descendants root).filter fun n =>
    match elemTag n with
    | some t => p t
    | none => false

/-- `querySelectorAll("t1 t2")` (descendant combinator), modelled as the
`t2` descendants of each `t1` descendant, in document order; exact when the
`t1` matches do not nest. -/
def selectDesc2 (root : HNode) (t1 t2 : String) : List HNode :=
  ((qsa root (· == t1)).map fun h => qsa h (· == t2)).flatten

/-- Result shape of `parseHtmlTable` (part_005 lines 15-18). -/
structure ParsedTable where
  headers : List String
  rows : List (List String)
deriving DecidableEq, Repr

/-- Cell selector `"td, th"` of the source: a `<td>` or `<th>` element. -/
def isCellTag (t : String) : Bool := t == "td" || t == "th"

/-- Whitespace trim at both ends (structural model of JS
`String.prototype.trim` / Lean `String.trim`). -/
def trimString (s : String) : String :=
  String.mk (((s.data.dropWhile Char.isWhitespace).reverse.dropWhile
    Char.isWhitespace).reverse)

/-- Cells of one row: text of every `<td>`/`<th>` descendant, in document
order, trimmed (`cell.textContent?.trim() || ""`). -/
def extractCells (row : HNode) : List String :=
  (qsa row isCellTag).map fun c => trimString (textContent c)

/-- Header row of a table: the first `<thead> <tr>` if any, else the
table's first `<tr>` (`querySelector("thead tr") || querySelector("tr")`).
-/
def tableHeaderRow (table : HNode) : Option HNode :=
  match (selectDesc2 table "thead" "tr").head? with
  | some hr => some hr
  | none => (qsa table (· == "tr")).head?

/-- Header cells of a table (empty when no row qualifies). -/
def tableHeaders (table : HNode) : List String :=
  match tableHeaderRow table with
  | some hr => extractCells hr
  | none => []

/-- Body rows of a table: the `<tbody> <tr>` rows when at least one exists,
else all `<tr>`s minus index 0 when headers were found; in both branches a
row is pushed only when it has at least one cell element
(`if (cells.length > 0)`). -/
def tableRows (table : HNode) : List (List String) :=
  if (selectDesc2 table "tbody" "tr").length > 0 then
    ((selectDesc2 table "tbody" "tr").map extractCells).filter fun cs => cs.length > 0
  else
    (((qsa table (· == "tr")).enum.filter fun p =>
        !(p.1 == 0 && (tableHeaders table).length > 0)).map
      fun p => extractCells p.2).filter fun cs => cs.length > 0

/-- Embedding of `parseHtmlTable` (part_005 lines 20-69) over the parsed
document tree: for each `<table>` (document order) collect headers and
rows; a table with neither headers nor rows is omitted. -/
def parseHtmlTable (doc : HNode) : List ParsedTable :=
  (qsa doc (· == "table")).foldr
    (fun table acc =>
      if (tableHeaders table).length > 0 || (tableRows table).length > 0 then
        { headers := tableHeaders table, rows := tableRows table } :: acc
      else acc)
    []

/-- Whether `pat` occurs as a contiguous substring (JS `String.includes`). -/
def hasSubstrList (pat : List Char) : List Char → Bool
  | [] => pat.isEmpty
  | c :: cs => hasPrefixList pat (c :: cs) || hasSubstrList pat cs

/-- JS `s.includes(pat)`. -/
def hasSubstr (s pat : String) : Bool := hasSubstrList pat.data s.data

/-- The marker test of `findHtmlContent`:
`obj.includes("<table") || obj.includes("<tr") || obj.includes("<td")`. -/
def hasHtmlMarker (s : String) : Bool :=
  hasSubstr s "<table" || hasSubstr s "<tr" || hasSubstr s "<td"

/-- Untyped JSON-like document: string, number, boolean and null leaves,
arrays (index order) and objects (own-key insertion order). -/
inductive JSVal where
  | str : String → JSVal
  | num : JSNum → JSVal
  | bool : Bool → JSVal
  | null : JSVal
  | arr : List JSVal → JSVal
  | obj : List (String × JSVal) → JSVal

mutual

/-- Embedding of `findHtmlContent` (findHtmlObject.ts lines 1-14): a string
containing one of the HTML markers is returned; otherwise objects and
arrays are searched depth-first over `Object.values` (insertion order for
objects, index order for arrays); every other value gives null. -/
def findHtmlContent : JSVal → Option String
  | .str s => if hasHtmlMarker s then some s else none
  | .num _ => none
  | .bool _ => none
  | .null => none
  | .arr l => findHtmlContentArr l
  | .obj fs => findHtmlContentObj fs

/-- The `for (const value of Object.values(obj))` loop over an array. -/
def findHtmlContentArr : List JSVal → Option String
  | [] => none
  | v :: vs =>
    match findHtmlContent v with
    | some r => some r
    | none => findHtmlContentArr vs

/-- The `for (const value of Object.values(obj))` loop over an object. -/
def findHtmlContentObj : List (String × JSVal) → Option String
  | [] => none
  | (_, v) :: fs =>
    match findHtmlContent v with
    | some r => some r
    | none => findHtmlContentObj fs

end

mutual

/-- The string leaves of a document in depth-first traversal order
(specification-side definition, used to state what "the first matching
string value" means). -/
def stringLeaves : JSVal → List String
  | .str s => [s]
  | .num _ => []
  | .bool _ => []
  | .null => []
  | .arr l => stringLeavesArr l
  | .obj fs => stringLeavesObj fs

/-- `stringLeaves` over an array. -/
def stringLeavesArr : List JSVal → List String
  | [] => []
  | v :: vs => stringLeaves v ++ stringLeavesArr vs

/-- `stringLeaves` over an object field list. -/
def stringLeavesObj : List (String × JSVal) → List String
  | [] => []
  | (_, v) :: fs => stringLeaves v ++ stringLeavesObj fs

end

/-! Helper lemmas about the JavaScript number model. -/

/-- `parseScientific` never yields NaN on a string token: an unparseable
string degrades to 0. -/
theorem nanToZero_ne_nan (x : JSNum) : nanToZero x ≠ .nan := by
  cases x <;> simp [nanToZero]

/-- `parseScientific` on a string token never yields NaN. -/
theorem parseScientific_str_ne_nan (s : String) : parseScientific (.str s) ≠ .nan := by
  simp only [parseScientific]
  split
  · simp
  · exact nanToZero_ne_nan _

/-- `parseNumber` never yields NaN: an unparseable string degrades to 0. -/
theorem parseNumber_ne_nan (v : Option String) : parseNumber v ≠ .nan := by
  cases v with
  | none => simp [parseNumber]
  | some s =>
    simp only [parseNumber]
    split
    · simp
    · exact nanToZero_ne_nan _

/-- The absolute value of a non-NaN value is non-negative in the JS order. -/
theorem abs_ge_zero_of_ne_nan (v : JSNum) (h : v ≠ .nan) : v.abs.ge (.fin 0) = true := by
  cases v with
  | nan => exact absurd rfl h
  | inf => rfl
  | neginf => rfl
  | fin q => simp [JSNum.abs, JSNum.ge, JSNum.le, abs_nonneg q]

/-- Evaluation rule for `parseFloatJS`: a decided discrete parse plus a
`norm_num`-certified arithmetic fact give the parsed value. -/
theorem parseFloatJS_eval (s : String) (neg : Bool) (ip fp fracLen : ℕ) (e : ℤ) (x : ℚ)
    (h : parseFloatRepr s = .finite neg ip fp fracLen e)
    (hx : (if neg = true then -(((ip : ℚ) + (fp : ℚ) / 10 ^ fracLen) * (10 : ℚ) ^ e)
           else ((ip : ℚ) + (fp : ℚ) / 10 ^ fracLen) * (10 : ℚ) ^ e) = x) :
    parseFloatJS s = .fin x := by
  simp only [parseFloatJS, h, floatOfParse]
  rw [← hx]

/-- Evaluation rule for `parseScientific` on a string token. -/
theorem parseScientific_str_eval (s : String) (x : ℚ)
    (hs : ¬s = "") (h : parseFloatJS s = .fin x) :
    parseScientific (.str s) = .fin x := by
  simp [parseScientific, hs, h, nanToZero]

/-- Evaluation rule for `parseNumber`. -/
theorem parseNumber_eval (s : String) (x : ℚ)
    (hs : ¬s = "")
    (h : parseFloatJS (String.mk (s.data.filter fun c => !(c == '+' || c == ','))) = .fin x) :
    parseNumber (some s) = .fin x := by
  simp only [parseNumber, if_neg hs]
  rw [h]
  rfl

/-- C4 counterexample: the string "Infinity" parses to a non-finite number
and `parseScientific` returns that infinity, not 0 (isNaN(Infinity) is
false), so "returns 0 for every string that fails to parse to a finite
number" is false as stated. -/
theorem parseScientific_infinity_counterexample :
    parseScientific (.str "Infinity") = .inf ∧ JSNum.inf ≠ JSNum.fin 0 :=
  ⟨by decide, by decide⟩

/-- C4 (amended): `parseScientific` returns 0 for absent, null and empty
inputs and for every string whose parse yields NaN; a plain number input is
returned unchanged; "1.5E+09" parses to 1500000000.  (A string parsing to
an infinity is returned as that infinity, not replaced by 0.) -/
theorem parseScientific_silent_degrade :
    parseScientific .undef = .fin 0 ∧
    parseScientific .nullv = .fin 0 ∧
    parseScientific (.str "") = .fin 0 ∧
    (∀ s : String, parseFloatJS s = .nan → parseScientific (.str s) = .fin 0) ∧
    (∀ v : JSNum, parseScientific (.num v) = v) ∧
    parseScientific (.str "1.5E+09") = .fin 1500000000 := by
  refine ⟨rfl, rfl, by decide, ?_, fun v => rfl,
    parseScientific_str_eval _ _ (by decide)
      (parseFloatJS_eval _ false 1 5 1 9 _ (by decide) (by norm_num))⟩
  intro s h
  simp only [parseScientific]
  split
  · rfl
  · simp [nanToZero, h]

/-- Witness for C4: the amended statement applied at "abc" (which parses to
NaN) and at the number 7. -/
theorem parseScientific_silent_degrade_witness :
    parseScientific (.str "abc") = .fin 0 ∧ parseScientific (.num (.fin 7)) = .fin 7 :=
  ⟨parseScientific_silent_degrade.2.2.2.1 "abc" (by decide),
   parseScientific_silent_degrade.2.2.2.2.1 (.fin 7)⟩

/-- C8: `formatDate` maps every 8-character digit string YYYYMMDD to
YYYY-MM-DD, returns every input of length other than 8 unchanged, and in
particular "20240315" becomes "2024-03-15". -/
theorem formatDate_spec :
    (∀ s : String, s.length ≠ 8 → formatDate s = s) ∧
    (∀ c1 c2 c3 c4 c5 c6 c7 c8 : Char,
      (∀ c ∈ [c1, c2, c3, c4, c5, c6, c7, c8], c.isDigit = true) →
      formatDate (String.mk [c1, c2, c3, c4, c5, c6, c7, c8]) =
        String.mk [c1, c2, c3, c4, '-', c5, c6, '-', c7, c8]) ∧
    formatDate "20240315" = "2024-03-15" := by
  refine ⟨?_, ?_, by decide⟩
  · intro s h
    simp [formatDate, h]
  · intro c1 c2 c3 c4 c5 c6 c7 c8 _
    simp only [formatDate]
    rw [if_neg]
    · rfl
    · simp [String.length, String.ext_iff]

/-- Witness for C8: length-3 input "bad" is returned unchanged; the digit
string 20240315 is reformatted. -/
theorem formatDate_spec_witness :
    formatDate "bad" = "bad" ∧
    formatDate (String.mk ['2', '0', '2', '4', '0', '3', '1', '5']) =
      String.mk ['2', '0', '2', '4', '-', '0', '3', '-', '1', '5'] :=
  ⟨formatDate_spec.1 "bad" (by decide),
   formatDate_spec.2.1 '2' '0' '2' '4' '0' '3' '1' '5' (by decide)⟩

/-- C1: a serialized sell stores lot and value as the non-negative absolute
values of the parsed raw fields, sets netLot and netValue to their
negations, does not negate the average sell price, and on
slot = "-1.5E+03" produces sellLot 1500 and netLot -1500. -/
theorem serializeSellTransaction_sign (raw : RawBrokerSell) :
    (serializeSellTransaction raw).sellLot = (parseScientific (.str raw.slot)).abs ∧
    (serializeSellTransaction raw).sellValue = (parseScientific (.str raw.sval)).abs ∧
    (serializeSellTransaction raw).sellLot.ge (.fin 0) = true ∧
    (serializeSellTransaction raw).sellValue.ge (.fin 0) = true ∧
    (serializeSellTransaction raw).netLot = (serializeSellTransaction raw).sellLot.neg ∧
    (serializeSellTransaction raw).netValue = (serializeSellTransaction raw).sellValue.neg ∧
    (serializeSellTransaction raw).sellAvgPrice = parseScientific (.str raw.netbs_sell_avg_price) ∧
    (raw.slot = "-1.5E+03" →
      (serializeSellTransaction raw).sellLot = .fin 1500 ∧
      (serializeSellTransaction raw).netLot = .fin (-1500)) := by
  refine ⟨rfl, rfl,
    abs_ge_zero_of_ne_nan _ (parseScientific_str_ne_nan _),
    abs_ge_zero_of_ne_nan _ (parseScientific_str_ne_nan _),
    rfl, rfl, rfl, ?_⟩
  intro h
  have hp : parseScientific (.str raw.slot) = .fin (-1500) := by
    rw [h]
    exact parseScientific_str_eval _ _ (by decide)
      (parseFloatJS_eval _ true 1 5 1 3 _ (by decide) (by norm_num))
  constructor
  · show (parseScientific (.str raw.slot)).abs = JSNum.fin 1500
    rw [hp]
    show JSNum.fin |(-1500 : ℚ)| = JSNum.fin 1500
    norm_num
  · show ((parseScientific (.str raw.slot)).abs).neg = JSNum.fin (-1500)
    rw [hp]
    show JSNum.fin (-|(-1500 : ℚ)|) = JSNum.fin (-1500)
    norm_num

/-- A concrete raw sell record with the upstream negative scientific
encoding. -/
def sellRecA : RawBrokerSell :=
  { netbs_broker_code := "YP"
    netbs_date := "20240315"
    netbs_sell_avg_price := "1.0E+03"
    netbs_stock_code := "BBCA"
    slot := "-1.5E+03"
    slotv := ""
    sval := "-1.5E+06"
    svalv := ""
    type := "Lokal" }

/-- Witness for C1: the sign statement applied at a concrete record whose
slot is "-1.5E+03". -/
theorem serializeSellTransaction_sign_witness :
    (serializeSellTransaction sellRecA).sellLot = .fin 1500 ∧
    (serializeSellTransaction sellRecA).netLot = .fin (-1500) :=
  (serializeSellTransaction_sign sellRecA).2.2.2.2.2.2.2 rfl

/-- Fold over a mapped list is the fold of the composition. -/
theorem sumBy_map {α β : Type} (f : β → JSNum) (g : α → β) (l : List α) :
    sumBy f (l.map g) = sumBy (fun x => f (g x)) l := by
  simp [sumBy, List.foldl_map]

/-- C2: `serializeBrokerActivity` computes the four totals as folds over
the serialized transaction sequences (equivalently, over the raw sequences
of parsed, made-positive magnitudes), nets are total differences, and all
are 0 when both sequences are empty or absent. -/
theorem serializeBrokerActivity_totals (raw : RawBrokerActivityResponse) :
    (serializeBrokerActivity raw).totalBuyValue =
      sumBy (·.buyValue) (serializeBrokerActivity raw).buyTransactions ∧
    (serializeBrokerActivity raw).totalBuyLot =
      sumBy (·.buyLot) (serializeBrokerActivity raw).buyTransactions ∧
    (serializeBrokerActivity raw).totalSellValue =
      sumBy (·.sellValue) (serializeBrokerActivity raw).sellTransactions ∧
    (serializeBrokerActivity raw).totalSellLot =
      sumBy (·.sellLot) (serializeBrokerActivity raw).sellTransactions ∧
    (serializeBrokerActivity raw).totalBuyValue =
      sumBy (fun b => parseScientific (.str b.bval))
        (raw.data.broker_summary.brokers_buy.getD []) ∧
    (serializeBrokerActivity raw).totalBuyLot =
      sumBy (fun b => parseScientific (.str b.blot))
        (raw.data.broker_summary.brokers_buy.getD []) ∧
    (serializeBrokerActivity raw).totalSellValue =
      sumBy (fun r => (parseScientific (.str r.sval)).abs)
        (raw.data.broker_summary.brokers_sell.getD []) ∧
    (serializeBrokerActivity raw).totalSellLot =
      sumBy (fun r => (parseScientific (.str r.slot)).abs)
        (raw.data.broker_summary.brokers_sell.getD []) ∧
    (serializeBrokerActivity raw).netValue =
      (serializeBrokerActivity raw).totalBuyValue.sub
        (serializeBrokerActivity raw).totalSellValue ∧
    (serializeBrokerActivity raw).netLot =
      (serializeBrokerActivity raw).totalBuyLot.sub
        (serializeBrokerActivity raw).totalSellLot ∧
    (raw.data.broker_summary.brokers_buy.getD [] = [] →
      raw.data.broker_summary.brokers_sell.getD [] = [] →
      (serializeBrokerActivity raw).totalBuyValue = .fin 0 ∧
      (serializeBrokerActivity raw).totalBuyLot = .fin 0 ∧
      (serializeBrokerActivity raw).totalSellValue = .fin 0 ∧
      (serializeBrokerActivity raw).totalSellLot = .fin 0 ∧
      (serializeBrokerActivity raw).netValue = .fin 0 ∧
      (serializeBrokerActivity raw).netLot = .fin 0) := by
  refine ⟨rfl, rfl, rfl, rfl, ?_, ?_, ?_, ?_, rfl, rfl, ?_⟩
  · show sumBy (·.buyValue)
      ((raw.data.broker_summary.brokers_buy.getD []).map serializeBuyTransaction) = _
    rw [sumBy_map]
    rfl
  · show sumBy (·.buyLot)
      ((raw.data.broker_summary.brokers_buy.getD []).map serializeBuyTransaction) = _
    rw [sumBy_map]
    rfl
  · show sumBy (·.sellValue)
      ((raw.data.broker_summary.brokers_sell.getD []).map serializeSellTransaction) = _
    rw [sumBy_map]
    rfl
  · show sumBy (·.sellLot)
      ((raw.data.broker_summary.brokers_sell.getD []).map serializeSellTransaction) = _
    rw [sumBy_map]
    rfl
  · intro hb hs
    have h1 : (serializeBrokerActivity raw).totalBuyValue = .fin 0 := by
      show sumBy (·.buyValue)
        ((raw.data.broker_summary.brokers_buy.getD []).map serializeBuyTransaction) = _
      rw [hb]
      rfl
    have h2 : (serializeBrokerActivity raw).totalBuyLot = .fin 0 := by
      show sumBy (·.buyLot)
        ((raw.data.broker_summary.brokers_buy.getD []).map serializeBuyTransaction) = _
      rw [hb]
      rfl
    have h3 : (serializeBrokerActivity raw).totalSellValue = .fin 0 := by
      show sumBy (·.sellValue)
        ((raw.data.broker_summary.brokers_sell.getD []).map serializeSellTransaction) = _
      rw [hs]
      rfl
    have h4 : (serializeBrokerActivity raw).totalSellLot = .fin 0 := by
      show sumBy (·.sellLot)
        ((raw.data.broker_summary.brokers_sell.getD []).map serializeSellTransaction) = _
      rw [hs]
      rfl
    have hnv : (serializeBrokerActivity raw).netValue =
        (serializeBrokerActivity raw).totalBuyValue.sub
          (serializeBrokerActivity raw).totalSellValue := rfl
    have hnl : (serializeBrokerActivity raw).netLot =
        (serializeBrokerActivity raw).totalBuyLot.sub
          (serializeBrokerActivity raw).totalSellLot := rfl
    refine ⟨h1, h2, h3, h4, ?_, ?_⟩
    · rw [hnv, h1, h3]
      show JSNum.fin (0 + -0) = JSNum.fin 0
      norm_num
    · rw [hnl, h2, h4]
      show JSNum.fin (0 + -0) = JSNum.fin 0
      norm_num

/-- A zeroed accumulation/distribution bucket for concrete responses. -/
def accDistZero : RawAccDistInfo :=
  { accdist := "", amount := .fin 0, percent := .fin 0, vol := .fin 0 }

/-- A zeroed bandar detector for concrete responses. -/
def bandarZero : RawBandarDetector :=
  { average := .fin 0
    avg := accDistZero
    avg5 := accDistZero
    broker_accdist := ""
    number_broker_buysell := .fin 0
    top1 := accDistZero
    top3 := accDistZero
    top5 := accDistZero
    top10 := accDistZero
    total_buyer := .fin 0
    total_seller := .fin 0
    value := .fin 0
    volume := .fin 0 }

/-- A concrete raw response whose buy and sell sequences are absent. -/
def emptyBrokerRaw : RawBrokerActivityResponse :=
  { message := ""
    data :=
      { bandar_detector := bandarZero
        broker_summary := { brokers_buy := none, brokers_sell := none, symbol := "BBCA" }
        from_ := "20240315"
        to_ := "20240315"
        broker_code := "YP"
        broker_name := "Broker" } }

/-- Witness for C2: on a response with absent buy and sell sequences the
nets are zero. -/
theorem serializeBrokerActivity_totals_witness :
    (serializeBrokerActivity emptyBrokerRaw).netValue = .fin 0 ∧
    (serializeBrokerActivity emptyBrokerRaw).netLot = .fin 0 :=
  ⟨((serializeBrokerActivity_totals emptyBrokerRaw).2.2.2.2.2.2.2.2.2.2 rfl rfl).2.2.2.2.1,
   ((serializeBrokerActivity_totals emptyBrokerRaw).2.2.2.2.2.2.2.2.2.2 rfl rfl).2.2.2.2.2⟩

/-- C9: for every raw response, the summary projection's sell entries carry
exactly the lot, value and average price that the full serializer's
`serializeSellTransaction` produces for the same records: same non-negative
magnitudes, same unnegated average price. -/
theorem summarySells_match_full (raw : RawBrokerActivityResponse) :
    (serializeBrokerActivitySummary raw).sells.map (fun e => (e.lot, e.value, e.avgPrice)) =
    (serializeBrokerActivity raw).sellTransactions.map
      (fun t => (t.sellLot, t.sellValue, t.sellAvgPrice)) := by
  simp only [serializeBrokerActivitySummary, serializeBrokerActivity, List.map_map]
  rfl

/-- A value cannot be both strictly greater and strictly less than zero in
the JS order. -/
theorem not_gt_and_lt_zero (v : JSNum) :
    ¬(v.gt (.fin 0) = true ∧ v.lt (.fin 0) = true) := by
  cases v with
  | nan => simp [JSNum.gt, JSNum.lt]
  | inf => simp [JSNum.gt, JSNum.lt]
  | neginf => simp [JSNum.gt, JSNum.lt]
  | fin q =>
    simp only [JSNum.gt, JSNum.lt, decide_eq_true_eq]
    rintro ⟨h1, h2⟩
    exact absurd (h1.trans h2) (lt_irrefl _)

/-- C10: the serialized flags are mutually exclusive; isPositive holds
exactly when the parsed change is strictly positive, isNegative exactly
when strictly negative, and a zero change clears both. -/
theorem serializeStock_flags (raw : RawStockItem) :
    ¬((serializeStock raw).isPositive = true ∧ (serializeStock raw).isNegative = true) ∧
    (serializeStock raw).isPositive = (parseNumber (some raw.change)).gt (.fin 0) ∧
    (serializeStock raw).isNegative = (parseNumber (some raw.change)).lt (.fin 0) ∧
    (parseNumber (some raw.change) = .fin 0 →
      (serializeStock raw).isPositive = false ∧ (serializeStock raw).isNegative = false) := by
  refine ⟨not_gt_and_lt_zero _, rfl, rfl, ?_⟩
  intro h
  constructor
  · show (parseNumber (some raw.change)).gt (.fin 0) = false
    rw [h]
    simp [JSNum.gt, JSNum.lt]
  · show (parseNumber (some raw.change)).lt (.fin 0) = false
    rw [h]
    simp [JSNum.lt]

/-- A concrete raw stock item whose change parses to zero. -/
def stockZeroChange : RawStockItem :=
  { id := "1"
    symbol := "BBCA"
    name := "Bank"
    last := "100"
    previous := "100"
    change := "0"
    percent := "0"
    volume := "1000"
    prices := some []
    formatted_price := ""
    icon_url := ""
    exchange := "IDX"
    country := "ID"
    type := "stock"
    tradeable := none
    sequence_no := .fin 1
    orderbook := none
    corp_action := none
    uma := none
    notations := []
    notation_ := []
    status := .fin 1 }

/-- Witness for C10: with change "0" both flags are false. -/
theorem serializeStock_flags_witness :
    (serializeStock stockZeroChange).isPositive = false ∧
    (serializeStock stockZeroChange).isNegative = false :=
  (serializeStock_flags stockZeroChange).2.2.2
    (parseNumber_eval _ _ (by decide)
      (parseFloatJS_eval _ false 0 0 0 0 _ (by decide) (by norm_num)))

/-! Order lemmas for the JS comparison and `Math.max`/`Math.min`. -/

theorem le_refl_ne_nan (v : JSNum) (h : v ≠ .nan) : v.le v = true := by
  cases v <;> simp_all [JSNum.le]

theorem le_total_ne_nan (a b : JSNum) (ha : a ≠ .nan) (hb : b ≠ .nan) :
    a.le b = true ∨ b.le a = true := by
  cases a <;> cases b <;> simp_all [JSNum.le]
  exact le_total _ _

theorem le_trans_js {a b c : JSNum} (h1 : a.le b = true) (h2 : b.le c = true) :
    a.le c = true := by
  cases a <;> cases b <;> cases c <;> simp_all [JSNum.le]
  linarith

theorem max2_ne_nan {a b : JSNum} (ha : a ≠ .nan) (hb : b ≠ .nan) :
    a.max2 b ≠ .nan := by
  rw [JSNum.max2, if_neg (by simp [ha, hb])]
  split <;> assumption

theorem max2_eq_or {a b : JSNum} (ha : a ≠ .nan) (hb : b ≠ .nan) :
    a.max2 b = a ∨ a.max2 b = b := by
  rw [JSNum.max2, if_neg (by simp [ha, hb])]
  split
  · exact Or.inr rfl
  · exact Or.inl rfl

theorem le_max2_left {a b : JSNum} (ha : a ≠ .nan) (hb : b ≠ .nan) :
    a.le (a.max2 b) = true := by
  rw [JSNum.max2, if_neg (by simp [ha, hb])]
  split
  · assumption
  · exact le_refl_ne_nan a ha

theorem le_max2_right {a b : JSNum} (ha : a ≠ .nan) (hb : b ≠ .nan) :
    b.le (a.max2 b) = true := by
  rw [JSNum.max2, if_neg (by simp [ha, hb])]
  split
  · exact le_refl_ne_nan b hb
  · rcases le_total_ne_nan a b ha hb with h | h
    · simp_all
    · exact h

theorem max2_neginf_left (x : JSNum) (hx : x ≠ .nan) :
    JSNum.max2 .neginf x = x := by
  rw [JSNum.max2, if_neg (by simp [hx])]
  rw [if_pos]
  cases x <;> simp_all [JSNum.le]

theorem min2_ne_nan {a b : JSNum} (ha : a ≠ .nan) (hb : b ≠ .nan) :
    a.min2 b ≠ .nan := by
  rw [JSNum.min2, if_neg (by simp [ha, hb])]
  split <;> assumption

theorem min2_eq_or {a b : JSNum} (ha : a ≠ .nan) (hb : b ≠ .nan) :
    a.min2 b = a ∨ a.min2 b = b := by
  rw [JSNum.min2, if_neg (by simp [ha, hb])]
  split
  · exact Or.inl rfl
  · exact Or.inr rfl

theorem min2_le_left {a b : JSNum} (ha : a ≠ .nan) (hb : b ≠ .nan) :
    (a.min2 b).le a = true := by
  rw [JSNum.min2, if_neg (by simp [ha, hb])]
  split
  · exact le_refl_ne_nan a ha
  · rcases le_total_ne_nan a b ha hb with h | h
    · simp_all
    · exact h

theorem min2_le_right {a b : JSNum} (ha : a ≠ .nan) (hb : b ≠ .nan) :
    (a.min2 b).le b = true := by
  rw [JSNum.min2, if_neg (by simp [ha, hb])]
  split
  · assumption
  · exact le_refl_ne_nan b hb

theorem min2_inf_left (x : JSNum) (hx : x ≠ .nan) :
    JSNum.min2 .inf x = x := by
  rw [JSNum.min2, if_neg (by simp [hx])]
  cases x <;> simp_all [JSNum.le]

theorem foldl_max2_ne_nan :
    ∀ l : List JSNum, (∀ x ∈ l, x ≠ .nan) →
      ∀ acc : JSNum, acc ≠ .nan → l.foldl JSNum.max2 acc ≠ .nan := by
  intro l
  induction l with
  | nil => exact fun _ acc hacc => hacc
  | cons y t ih =>
    intro hl acc hacc
    have hy := hl y (List.mem_cons_self y t)
    have ht : ∀ x ∈ t, x ≠ .nan := fun x hx => hl x (List.mem_cons_of_mem _ hx)
    rw [List.foldl_cons]
    exact ih ht _ (max2_ne_nan hacc hy)

theorem foldl_max2_mem :
    ∀ l : List JSNum, (∀ x ∈ l, x ≠ .nan) →
      ∀ acc : JSNum, acc ≠ .nan →
        l.foldl JSNum.max2 acc = acc ∨ l.foldl JSNum.max2 acc ∈ l := by
  intro l
  induction l with
  | nil => exact fun _ acc _ => Or.inl rfl
  | cons y t ih =>
    intro hl acc hacc
    have hy := hl y (List.mem_cons_self y t)
    have ht : ∀ x ∈ t, x ≠ .nan := fun x hx => hl x (List.mem_cons_of_mem _ hx)
    rw [List.foldl_cons]
    rcases ih ht _ (max2_ne_nan hacc hy) with h | h
    · rcases max2_eq_or hacc hy with h2 | h2
      · exact Or.inl (by rw [h, h2])
      · refine Or.inr ?_
        rw [h, h2]
        exact List.mem_cons_self y t
    · exact Or.inr (List.mem_cons_of_mem _ h)

theorem le_foldl_max2 :
    ∀ l : List JSNum, (∀ x ∈ l, x ≠ .nan) →
      ∀ acc : JSNum, acc ≠ .nan → acc.le (l.foldl JSNum.max2 acc) = true := by
  intro l
  induction l with
  | nil => exact fun _ acc hacc => le_refl_ne_nan acc hacc
  | cons y t ih =>
    intro hl acc hacc
    have hy := hl y (List.mem_cons_self y t)
    have ht : ∀ x ∈ t, x ≠ .nan := fun x hx => hl x (List.mem_cons_of_mem _ hx)
    rw [List.foldl_cons]
    exact le_trans_js (le_max2_left hacc hy) (ih ht _ (max2_ne_nan hacc hy))

theorem mem_le_foldl_max2 :
    ∀ l : List JSNum, (∀ x ∈ l, x ≠ .nan) →
      ∀ acc : JSNum, acc ≠ .nan →
        ∀ x ∈ l, x.le (l.foldl JSNum.max2 acc) = true := by
  intro l
  induction l with
  | nil => intro _ acc _ x hx; cases hx
  | cons y t ih =>
    intro hl acc hacc x hx
    have hy := hl y (List.mem_cons_self y t)
    have ht : ∀ z ∈ t, z ≠ .nan := fun z hz => hl z (List.mem_cons_of_mem _ hz)
    rw [List.foldl_cons]
    rcases List.mem_cons.mp hx with rfl | hxt
    · exact le_trans_js (le_max2_right hacc hy)
        (le_foldl_max2 t ht _ (max2_ne_nan hacc hy))
    · exact ih ht _ (max2_ne_nan hacc hy) x hxt

theorem foldl_min2_ne_nan :
    ∀ l : List JSNum, (∀ x ∈ l, x ≠ .nan) →
      ∀ acc : JSNum, acc ≠ .nan → l.foldl JSNum.min2 acc ≠ .nan := by
  intro l
  induction l with
  | nil => exact fun _ acc hacc => hacc
  | cons y t ih =>
    intro hl acc hacc
    have hy := hl y (List.mem_cons_self y t)
    have ht : ∀ x ∈ t, x ≠ .nan := fun x hx => hl x (List.mem_cons_of_mem _ hx)
    rw [List.foldl_cons]
    exact ih ht _ (min2_ne_nan hacc hy)

theorem foldl_min2_mem :
    ∀ l : List JSNum, (∀ x ∈ l, x ≠ .nan) →
      ∀ acc : JSNum, acc ≠ .nan →
        l.foldl JSNum.min2 acc = acc ∨ l.foldl JSNum.min2 acc ∈ l := by
  intro l
  induction l with
  | nil => exact fun _ acc _ => Or.inl rfl
  | cons y t ih =>
    intro hl acc hacc
    have hy := hl y (List.mem_cons_self y t)
    have ht : ∀ x ∈ t, x ≠ .nan := fun x hx => hl x (List.mem_cons_of_mem _ hx)
    rw [List.foldl_cons]
    rcases ih ht _ (min2_ne_nan hacc hy) with h | h
    · rcases min2_eq_or hacc hy with h2 | h2
      · exact Or.inl (by rw [h, h2])
      · refine Or.inr ?_
        rw [h, h2]
        exact List.mem_cons_self y t
    · exact Or.inr (List.mem_cons_of_mem _ h)

theorem foldl_min2_le :
    ∀ l : List JSNum, (∀ x ∈ l, x ≠ .nan) →
      ∀ acc : JSNum, acc ≠ .nan → (l.foldl JSNum.min2 acc).le acc = true := by
  intro l
  induction l with
  | nil => exact fun _ acc hacc => le_refl_ne_nan acc hacc
  | cons y t ih =>
    intro hl acc hacc
    have hy := hl y (List.mem_cons_self y t)
    have ht : ∀ x ∈ t, x ≠ .nan := fun x hx => hl x (List.mem_cons_of_mem _ hx)
    rw [List.foldl_cons]
    exact le_trans_js (ih ht _ (min2_ne_nan hacc hy)) (min2_le_left hacc hy)

theorem foldl_min2_mem_le :
    ∀ l : List JSNum, (∀ x ∈ l, x ≠ .nan) →
      ∀ acc : JSNum, acc ≠ .nan →
        ∀ x ∈ l, (l.foldl JSNum.min2 acc).le x = true := by
  intro l
  induction l with
  | nil => intro _ acc _ x hx; cases hx
  | cons y t ih =>
    intro hl acc hacc x hx
    have hy := hl y (List.mem_cons_self y t)
    have ht : ∀ z ∈ t, z ≠ .nan := fun z hz => hl z (List.mem_cons_of_mem _ hz)
    rw [List.foldl_cons]
    rcases List.mem_cons.mp hx with rfl | hxt
    · exact le_trans_js (foldl_min2_le t ht _ (min2_ne_nan hacc hy))
        (min2_le_right hacc hy)
    · exact ih ht _ (min2_ne_nan hacc hy) x hxt

/-- Open/high/low core fact: over a non-empty NaN-free price list, the
first-element / spread-max / spread-min expressions of `serializeStock`
give the head, a maximal member and a minimal member. -/
theorem ohlc_core (d : JSNum) (ps : List JSNum) (hnn : ∀ x ∈ ps, x ≠ .nan)
    (hne : ps ≠ []) :
    (if 0 < ps.length then jsMaxList ps else d) ∈ ps ∧
    (∀ x ∈ ps, x.le (if 0 < ps.length then jsMaxList ps else d) = true) ∧
    (if 0 < ps.length then jsMinList ps else d) ∈ ps ∧
    (∀ x ∈ ps, (if 0 < ps.length then jsMinList ps else d).le x = true) := by
  obtain ⟨y, t, rfl⟩ := List.exists_cons_of_ne_nil hne
  have hy := hnn y (List.mem_cons_self y t)
  have ht : ∀ x ∈ t, x ≠ .nan := fun x hx => hnn x (List.mem_cons_of_mem _ hx)
  have hpos : 0 < (y :: t).length := by simp
  have hmax : jsMaxList (y :: t) = t.foldl JSNum.max2 y := by
    show (y :: t).foldl JSNum.max2 .neginf = _
    rw [List.foldl_cons, max2_neginf_left y hy]
  have hmin : jsMinList (y :: t) = t.foldl JSNum.min2 y := by
    show (y :: t).foldl JSNum.min2 .inf = _
    rw [List.foldl_cons, min2_inf_left y hy]
  refine ⟨?_, ?_, ?_, ?_⟩
  · rw [if_pos hpos, hmax]
    rcases foldl_max2_mem t ht y hy with h | h
    · rw [h]; exact List.mem_cons_self y t
    · exact List.mem_cons_of_mem _ h
  · intro x hx
    rw [if_pos hpos, hmax]
    rcases List.mem_cons.mp hx with rfl | hxt
    · exact le_foldl_max2 t ht x hy
    · exact mem_le_foldl_max2 t ht y hy x hxt
  · rw [if_pos hpos, hmin]
    rcases foldl_min2_mem t ht y hy with h | h
    · rw [h]; exact List.mem_cons_self y t
    · exact List.mem_cons_of_mem _ h
  · intro x hx
    rw [if_pos hpos, hmin]
    rcases List.mem_cons.mp hx with rfl | hxt
    · exact foldl_min2_le t ht x hy
    · exact foldl_min2_mem_le t ht y hy x hxt

/-- C3: `serializeStock` derives open/high/low from the parsed intraday
sequence when non-empty (open = first element, high = a maximum, low = a
minimum), all three equal lastPrice when it is empty, and on
prices = ["100","105","98","102"] gives open 100, high 105, low 98. -/
theorem serializeStock_ohlc (raw : RawStockItem) :
    ((serializeStock raw).intradayPrices ≠ [] →
      (serializeStock raw).intradayPrices.head? = some (serializeStock raw).openPrice ∧
      (serializeStock raw).highPrice ∈ (serializeStock raw).intradayPrices ∧
      (∀ x ∈ (serializeStock raw).intradayPrices,
        x.le (serializeStock raw).highPrice = true) ∧
      (serializeStock raw).lowPrice ∈ (serializeStock raw).intradayPrices ∧
      (∀ x ∈ (serializeStock raw).intradayPrices,
        (serializeStock raw).lowPrice.le x = true)) ∧
    ((serializeStock raw).intradayPrices = [] →
      (serializeStock raw).openPrice = (serializeStock raw).lastPrice ∧
      (serializeStock raw).highPrice = (serializeStock raw).lastPrice ∧
      (serializeStock raw).lowPrice = (serializeStock raw).lastPrice) ∧
    (raw.prices = some ["100", "105", "98", "102"] →
      (serializeStock raw).openPrice = .fin 100 ∧
      (serializeStock raw).highPrice = .fin 105 ∧
      (serializeStock raw).lowPrice = .fin 98) := by
  have hnn : ∀ x ∈ (raw.prices.getD []).map (fun p => parseNumber (some p)), x ≠ .nan := by
    intro x hx
    rcases List.mem_map.mp hx with ⟨p, _, rfl⟩
    exact parseNumber_ne_nan _
  refine ⟨?_, ?_, ?_⟩
  · intro hne
    have hne' : (raw.prices.getD []).map (fun p => parseNumber (some p)) ≠ [] := hne
    obtain ⟨h2, h3, h4, h5⟩ := ohlc_core (parseNumber (some raw.last)) _ hnn hne'
    refine ⟨?_, h2, h3, h4, h5⟩
    obtain ⟨y, t, hyt⟩ := List.exists_cons_of_ne_nil hne'
    show ((raw.prices.getD []).map (fun p => parseNumber (some p))).head? =
      some (match (raw.prices.getD []).map (fun p => parseNumber (some p)) with
        | [] => parseNumber (some raw.last)
        | p :: _ => p)
    rw [hyt]
    rfl
  · intro h
    have h' : (raw.prices.getD []).map (fun p => parseNumber (some p)) = [] := h
    refine ⟨?_, ?_, ?_⟩
    · show (match (raw.prices.getD []).map (fun p => parseNumber (some p)) with
        | [] => parseNumber (some raw.last)
        | p :: _ => p) = parseNumber (some raw.last)
      rw [h']
    · show (if 0 < ((raw.prices.getD []).map (fun p => parseNumber (some p))).length
          then jsMaxList ((raw.prices.getD []).map (fun p => parseNumber (some p)))
          else parseNumber (some raw.last)) = parseNumber (some raw.last)
      rw [h']
      simp
    · show (if 0 < ((raw.prices.getD []).map (fun p => parseNumber (some p))).length
          then jsMinList ((raw.prices.getD []).map (fun p => parseNumber (some p)))
          else parseNumber (some raw.last)) = parseNumber (some raw.last)
      rw [h']
      simp
  · intro hp
    have e1 : parseNumber (some "100") = .fin 100 :=
      parseNumber_eval _ _ (by decide)
        (parseFloatJS_eval _ false 100 0 0 0 _ (by decide) (by norm_num))
    have e2 : parseNumber (some "105") = .fin 105 :=
      parseNumber_eval _ _ (by decide)
        (parseFloatJS_eval _ false 105 0 0 0 _ (by decide) (by norm_num))
    have e3 : parseNumber (some "98") = .fin 98 :=
      parseNumber_eval _ _ (by decide)
        (parseFloatJS_eval _ false 98 0 0 0 _ (by decide) (by norm_num))
    have e4 : parseNumber (some "102") = .fin 102 :=
      parseNumber_eval _ _ (by decide)
        (parseFloatJS_eval _ false 102 0 0 0 _ (by decide) (by norm_num))
    have hps : (raw.prices.getD []).map (fun p => parseNumber (some p)) =
        [.fin 100, .fin 105, .fin 98, .fin 102] := by
      rw [hp]
      simp [e1, e2, e3, e4]
    refine ⟨?_, ?_, ?_⟩
    · show (match (raw.prices.getD []).map (fun p => parseNumber (some p)) with
        | [] => parseNumber (some raw.last)
        | p :: _ => p) = JSNum.fin 100
      rw [hps]
    · show (if 0 < ((raw.prices.getD []).map (fun p => parseNumber (some p))).length
          then jsMaxList ((raw.prices.getD []).map (fun p => parseNumber (some p)))
          else parseNumber (some raw.last)) = JSNum.fin 105
      rw [hps, if_pos (by decide)]
      decide
    · show (if 0 < ((raw.prices.getD []).map (fun p => parseNumber (some p))).length
          then jsMinList ((raw.prices.getD []).map (fun p => parseNumber (some p)))
          else parseNumber (some raw.last)) = JSNum.fin 98
      rw [hps, if_pos (by decide)]
      decide

/-- A concrete raw stock item with four intraday samples. -/
def stockA : RawStockItem :=
  { stockZeroChange with prices := some ["100", "105", "98", "102"], change := "2" }

/-- Witness for C3: the concrete sample sequence gives open 100, high 105,
low 98. -/
theorem serializeStock_ohlc_witness :
    (serializeStock stockA).openPrice = .fin 100 ∧
    (serializeStock stockA).highPrice = .fin 105 ∧
    (serializeStock stockA).lowPrice = .fin 98 :=
  (serializeStock_ohlc stockA).2.2 rfl

theorem string_empty_append (s : String) : "" ++ s = s := rfl

/-- Evaluation rule for `toFixedFin` on non-negative values: a
`norm_num`-certified floor gives the rendered digits. -/
theorem toFixedFin_eval (d : ℕ) (q : ℚ) (n : ℕ) (hq : 0 ≤ q)
    (hn : ⌊q * 10 ^ d + 1 / 2⌋ = (n : ℤ)) :
    toFixedFin d q = scaledDecimalString d n := by
  simp only [toFixedFin, abs_of_nonneg hq, hn, if_neg (not_lt.mpr hq), Int.toNat_natCast]
  exact string_empty_append _

theorem formatValue_T (q : ℚ) (h1 : 10 ^ 12 ≤ q) :
    formatValue (.fin q) = toFixedFin 2 (q / 10 ^ 12) ++ "T" := by
  have hq0 : (0 : ℚ) ≤ q := le_trans (by norm_num) h1
  have habs : (JSNum.fin q).abs = .fin q := by
    show JSNum.fin |q| = _
    rw [abs_of_nonneg hq0]
  have hsign : (JSNum.fin q).lt (.fin 0) = false := by
    simp only [JSNum.lt, decide_eq_false_iff_not]
    exact not_lt.mpr hq0
  have hc : (JSNum.fin q).ge (.fin (10 ^ 12)) = true := by
    simp only [JSNum.ge, JSNum.le, decide_eq_true_eq]
    exact h1
  simp only [formatValue, habs, hsign, hc, if_true, Bool.false_eq_true, if_false]
  exact congrArg (· ++ "T") (string_empty_append _)

theorem formatValue_M (q : ℚ) (h1 : 10 ^ 6 ≤ q) (h2 : q < 10 ^ 9) :
    formatValue (.fin q) = toFixedFin 2 (q / 10 ^ 6) ++ "M" := by
  have hq0 : (0 : ℚ) ≤ q := le_trans (by norm_num) h1
  have habs : (JSNum.fin q).abs = .fin q := by
    show JSNum.fin |q| = _
    rw [abs_of_nonneg hq0]
  have hsign : (JSNum.fin q).lt (.fin 0) = false := by
    simp only [JSNum.lt, decide_eq_false_iff_not]
    exact not_lt.mpr hq0
  have hcT : (JSNum.fin q).ge (.fin (10 ^ 12)) = false := by
    simp only [JSNum.ge, JSNum.le, decide_eq_false_iff_not]
    intro h
    linarith
  have hcB : (JSNum.fin q).ge (.fin (10 ^ 9)) = false := by
    simp only [JSNum.ge, JSNum.le, decide_eq_false_iff_not]
    exact not_le.mpr h2
  have hcM : (JSNum.fin q).ge (.fin (10 ^ 6)) = true := by
    simp only [JSNum.ge, JSNum.le, decide_eq_true_eq]
    exact h1
  simp only [formatValue, habs, hsign, hcT, hcB, hcM, if_true, Bool.false_eq_true, if_false]
  exact congrArg (· ++ "M") (string_empty_append _)

theorem formatValue_K (q : ℚ) (h1 : 10 ^ 3 ≤ q) (h2 : q < 10 ^ 6) :
    formatValue (.fin q) = toFixedFin 2 (q / 10 ^ 3) ++ "K" := by
  have hq0 : (0 : ℚ) ≤ q := le_trans (by norm_num) h1
  have habs : (JSNum.fin q).abs = .fin q := by
    show JSNum.fin |q| = _
    rw [abs_of_nonneg hq0]
  have hsign : (JSNum.fin q).lt (.fin 0) = false := by
    simp only [JSNum.lt, decide_eq_false_iff_not]
    exact not_lt.mpr hq0
  have hcT : (JSNum.fin q).ge (.fin (10 ^ 12)) = false := by
    simp only [JSNum.ge, JSNum.le, decide_eq_false_iff_not]
    intro h
    linarith
  have hcB : (JSNum.fin q).ge (.fin (10 ^ 9)) = false := by
    simp only [JSNum.ge, JSNum.le, decide_eq_false_iff_not]
    intro h
    linarith
  have hcM : (JSNum.fin q).ge (.fin (10 ^ 6)) = false := by
    simp only [JSNum.ge, JSNum.le, decide_eq_false_iff_not]
    exact not_le.mpr h2
  have hcK : (JSNum.fin q).ge (.fin (10 ^ 3)) = true := by
    simp only [JSNum.ge, JSNum.le, decide_eq_true_eq]
    exact h1
  simp only [formatValue, habs, hsign, hcT, hcB, hcM, hcK, if_true, Bool.false_eq_true,
    if_false]
  exact congrArg (· ++ "K") (string_empty_append _)

/-- For every strictly negative input, `formatValue` is the '-' sign glued
to the format of the negated (positive) value. -/
theorem formatValue_neg (v : JSNum) (h : v.lt (.fin 0) = true) :
    formatValue v = "-" ++ formatValue v.neg := by
  cases v with
  | nan => cases h
  | inf => cases h
  | neginf => decide
  | fin q =>
    have hq : q < 0 := by
      simpa only [JSNum.lt, decide_eq_true_eq] using h
    have habs : (JSNum.fin q).abs = .fin (-q) := by
      show JSNum.fin |q| = _
      rw [abs_of_neg hq]
    have hnegabs : (JSNum.fin (-q)).abs = .fin (-q) := by
      show JSNum.fin |(-q)| = _
      rw [abs_of_nonneg (neg_nonneg.mpr (le_of_lt hq))]
    have hsign : (JSNum.fin q).lt (.fin 0) = true := h
    have hsign2 : (JSNum.fin (-q)).lt (.fin 0) = false := by
      simp only [JSNum.lt, decide_eq_false_iff_not]
      intro hcon
      linarith
    show formatValue (.fin q) = "-" ++ formatValue (.fin (-q))
    simp only [formatValue, habs, hnegabs, hsign, hsign2, if_true, Bool.false_eq_true,
      if_false]
    simp only [string_empty_append, String.append_assoc]
    simp only [apply_ite (fun s : String => "-" ++ s)]

/-- For every strictly negative input, `formatVolume` skips all four suffix
branches (its thresholds are on the signed value) and falls through to
plain `toString`. -/
theorem formatVolume_neg (v : JSNum) (h : v.lt (.fin 0) = true) :
    formatVolume v = v.toStringJS := by
  cases v with
  | nan => cases h
  | inf => cases h
  | neginf => decide
  | fin q =>
    have hq : q < 0 := by
      simpa only [JSNum.lt, decide_eq_true_eq] using h
    have c1 : (JSNum.fin q).ge (.fin (10 ^ 12)) = false := by
      simp only [JSNum.ge, JSNum.le, decide_eq_false_iff_not]
      intro hcon
      linarith
    have c2 : (JSNum.fin q).ge (.fin (10 ^ 9)) = false := by
      simp only [JSNum.ge, JSNum.le, decide_eq_false_iff_not]
      intro hcon
      linarith
    have c3 : (JSNum.fin q).ge (.fin (10 ^ 6)) = false := by
      simp only [JSNum.ge, JSNum.le, decide_eq_false_iff_not]
      intro hcon
      linarith
    have c4 : (JSNum.fin q).ge (.fin (10 ^ 3)) = false := by
      simp only [JSNum.ge, JSNum.le, decide_eq_false_iff_not]
      intro hcon
      linarith
    simp only [formatVolume, c1, c2, c3, c4, Bool.false_eq_true, if_false]

/-- Concrete `toString` rendering of -2500. -/
theorem toStringJS_neg2500 : (JSNum.fin (-2500)).toStringJS = "-2500" := by
  show toStringFin (-2500) = "-2500"
  have hn : ⌊|(-2500 : ℚ)| * 10 ^ 20⌋ = (250000000000000000000000 : ℤ) := by
    norm_num
  simp only [toStringFin, hn, if_pos (show (-2500 : ℚ) < 0 by norm_num),
    Int.toNat_natCast]
  decide

/-- C5 counterexample: at the `formatVolume` call site the claim fails —
`formatVolume` applies its thresholds to the signed value, so -2500 falls
through every suffix branch and renders as plain "-2500", not "-2.50K". -/
theorem formatVolume_neg2500_counterexample :
    formatVolume (.fin (-2500)) = "-2500" ∧ formatVolume (.fin (-2500)) ≠ "-2.50K" := by
  have h : formatVolume (.fin (-2500)) = (JSNum.fin (-2500)).toStringJS :=
    formatVolume_neg _ (by decide)
  rw [h, toStringJS_neg2500]
  exact ⟨rfl, by decide⟩

/-- C5 (amended): `formatValue` selects K/M/B/T by thresholds on the
absolute value and preserves a leading '-' (1000000 → "1.00M",
1234000000000 → "1.23T", -2500 → "-2.50K"); `formatVolume`, however,
applies the thresholds to the signed value, so every strictly negative
input falls through to plain `toString` — in particular
formatVolume(-2500) = "-2500". -/
theorem formatters_sign_behavior :
    formatValue (.fin 1000000) = "1.00M" ∧
    formatValue (.fin 1234000000000) = "1.23T" ∧
    formatValue (.fin (-2500)) = "-2.50K" ∧
    (∀ v : JSNum, v.lt (.fin 0) = true → formatValue v = "-" ++ formatValue v.neg) ∧
    (∀ v : JSNum, v.lt (.fin 0) = true → formatVolume v = v.toStringJS) ∧
    formatVolume (.fin (-2500)) = "-2500" := by
  refine ⟨?_, ?_, ?_, formatValue_neg, formatVolume_neg, ?_⟩
  · rw [formatValue_M 1000000 (by norm_num) (by norm_num),
      toFixedFin_eval 2 (1000000 / 10 ^ 6) 100 (by norm_num) (by norm_num)]
    decide
  · rw [formatValue_T 1234000000000 (by norm_num),
      toFixedFin_eval 2 (1234000000000 / 10 ^ 12) 123 (by norm_num) (by norm_num)]
    decide
  · have hneg : formatValue (.fin (-2500)) = "-" ++ formatValue (JSNum.fin (-2500)).neg :=
      formatValue_neg _ (by decide)
    rw [hneg]
    show "-" ++ formatValue (.fin (-(-2500 : ℚ))) = "-2.50K"
    rw [show (-(-2500 : ℚ)) = 2500 by norm_num,
      formatValue_K 2500 (by norm_num) (by norm_num),
      toFixedFin_eval 2 (2500 / 10 ^ 3) 250 (by norm_num) (by norm_num)]
    decide
  · have h : formatVolume (.fin (-2500)) = (JSNum.fin (-2500)).toStringJS :=
      formatVolume_neg _ (by decide)
    rw [h, toStringJS_neg2500]

/-- Witness for C5: the sign laws applied at -7000000 and -300. -/
theorem formatters_sign_behavior_witness :
    formatValue (.fin (-7000000)) = "-" ++ formatValue ((JSNum.fin (-7000000)).neg) ∧
    formatVolume (.fin (-300)) = (JSNum.fin (-300)).toStringJS :=
  ⟨formatters_sign_behavior.2.2.2.1 _ (by decide),
   formatters_sign_behavior.2.2.2.2.1 _ (by decide)⟩

theorem tableRows_ne_nil (tb : HNode) : ∀ row ∈ tableRows tb, row ≠ [] := by
  intro row hrow
  unfold tableRows at hrow
  split at hrow
  · have h := (List.mem_filter.mp hrow).2
    simp only [decide_eq_true_eq] at h
    exact List.ne_nil_of_length_pos h
  · have h := (List.mem_filter.mp hrow).2
    simp only [decide_eq_true_eq] at h
    exact List.ne_nil_of_length_pos h

theorem foldr_tables_mem (l : List HNode) (t : ParsedTable)
    (h : t ∈ l.foldr
      (fun table acc =>
        if (tableHeaders table).length > 0 || (tableRows table).length > 0 then
          { headers := tableHeaders table, rows := tableRows table } :: acc
        else acc)
      []) :
    ∃ tb, t = { headers := tableHeaders tb, rows := tableRows tb } := by
  induction l with
  | nil => cases h
  | cons x xs ih =>
    rw [List.foldr_cons] at h
    by_cases hc : (tableHeaders x).length > 0 || (tableRows x).length > 0
    · rw [if_pos hc] at h
      rcases List.mem_cons.mp h with rfl | h2
      · exact ⟨x, rfl⟩
      · exact ih h2
    · rw [if_neg hc] at h
      exact ih h

/-- A table cell containing the given text. -/
def tdCell (s : String) : HNode := .elem "td" [.text s]

/-- A header cell containing the given text. -/
def thCell (s : String) : HNode := .elem "th" [.text s]

/-- A table row with the given cells. -/
def trRow (cs : List HNode) : HNode := .elem "tr" cs

/-- A document with one table: header A/B and a `<tbody>` whose first row
has two entirely-empty cells and whose second row is "1"/"2". -/
def emptyCellDoc : HNode :=
  .elem "html" [.elem "body" [.elem "table" [
    .elem "thead" [trRow [thCell "A", thCell "B"]],
    .elem "tbody" [trRow [tdCell "", tdCell ""], trRow [tdCell "1", tdCell "2"]]]]]

/-- A document with one table: header H1/H2 and a `<tbody>` whose first row
has no cell elements at all (text only) and whose second row mixes `<th>`
and `<td>` with padding whitespace. -/
def cellLessRowDoc : HNode :=
  .elem "html" [.elem "table" [
    .elem "thead" [trRow [thCell "H1", thCell "H2"]],
    .elem "tbody" [trRow [.text "no cells"], trRow [thCell " a ", tdCell "b "]]]]

/-- C6 counterexample: a `<tbody>` row whose cells are all entirely empty
is NOT dropped — the code drops a row only when it contributes zero cell
elements, so the all-empty row appears in the result as ["", ""]. -/
theorem parseHtmlTable_empty_row_kept_counterexample :
    parseHtmlTable emptyCellDoc =
      [{ headers := ["A", "B"], rows := [["", ""], ["1", "2"]] }] ∧
    ["", ""] ∈ (parseHtmlTable emptyCellDoc).foldr (fun t acc => t.rows ++ acc) [] := by
  constructor <;> decide

/-- C6 (amended): each row's cells are the trimmed texts of its `<td>` and
`<th>` elements in document order, and a row is dropped exactly when it
contributes zero cell elements — a row whose cells are present but all
empty after trimming is kept, its cells appearing as empty strings. -/
theorem parseHtmlTable_row_filtering (doc : HNode) :
    (∀ t ∈ parseHtmlTable doc, ∀ row ∈ t.rows, row ≠ []) ∧
    parseHtmlTable emptyCellDoc =
      [{ headers := ["A", "B"], rows := [["", ""], ["1", "2"]] }] ∧
    parseHtmlTable cellLessRowDoc =
      [{ headers := ["H1", "H2"], rows := [["a", "b"]] }] := by
  refine ⟨?_, by decide, by decide⟩
  intro t ht row hrow
  obtain ⟨tb, rfl⟩ := foldr_tables_mem _ t ht
  exact tableRows_ne_nil tb row hrow

/-- Witness for C6: the no-empty-row-lists fact applied to the concrete
document (the kept row ["", ""] is indeed a non-empty cell list). -/
theorem parseHtmlTable_row_filtering_witness :
    (["", ""] : List String) ≠ [] :=
  (parseHtmlTable_row_filtering emptyCellDoc).1
    { headers := ["A", "B"], rows := [["", ""], ["1", "2"]] } (by decide)
    ["", ""] (by decide)

mutual

theorem findHtmlContent_eq_find (v : JSVal) :
    findHtmlContent v = (stringLeaves v).find? hasHtmlMarker := by
  cases v with
  | str s =>
    by_cases h : hasHtmlMarker s <;>
      simp [findHtmlContent, stringLeaves, List.find?_cons, h]
  | num n => rfl
  | bool b => rfl
  | null => rfl
  | arr l => exact findHtmlContentArr_eq_find l
  | obj fs => exact findHtmlContentObj_eq_find fs

theorem findHtmlContentArr_eq_find (l : List JSVal) :
    findHtmlContentArr l = (stringLeavesArr l).find? hasHtmlMarker := by
  cases l with
  | nil => rfl
  | cons v vs =>
    show (match findHtmlContent v with
      | some r => some r
      | none => findHtmlContentArr vs) =
      (stringLeaves v ++ stringLeavesArr vs).find? hasHtmlMarker
    rw [findHtmlContent_eq_find v, findHtmlContentArr_eq_find vs, List.find?_append]
    cases (stringLeaves v).find? hasHtmlMarker <;> simp [Option.or]

theorem findHtmlContentObj_eq_find (fs : List (String × JSVal)) :
    findHtmlContentObj fs = (stringLeavesObj fs).find? hasHtmlMarker := by
  cases fs with
  | nil => rfl
  | cons kv rest =>
    show (match findHtmlContent kv.2 with
      | some r => some r
      | none => findHtmlContentObj rest) =
      (stringLeaves kv.2 ++ stringLeavesObj rest).find? hasHtmlMarker
    rw [findHtmlContent_eq_find kv.2, findHtmlContentObj_eq_find rest, List.find?_append]
    cases (stringLeaves kv.2).find? hasHtmlMarker <;> simp [Option.or]

end

/-- C7: `findHtmlContent` returns exactly the first string value in
depth-first traversal order (object insertion order, array index order)
that contains one of the markers "<table", "<tr", "<td", and null when no
string leaf contains any of them. -/
theorem findHtmlContent_spec (v : JSVal) :
    findHtmlContent v = (stringLeaves v).find? hasHtmlMarker ∧
    ((∀ s ∈ stringLeaves v, hasHtmlMarker s = false) → findHtmlContent v = none) := by
  refine ⟨findHtmlContent_eq_find v, ?_⟩
  intro h
  rw [findHtmlContent_eq_find v]
  exact List.find?_eq_none.mpr fun x hx => by simp [h x hx]

/-- Witness for C7: a document with string leaves but no HTML marker gives
null. -/
theorem findHtmlContent_spec_witness :
    findHtmlContent
      (JSVal.obj [("a", .str "plain"), ("b", .arr [.num (.fin 1), .str "text"])]) =
      none :=
  (findHtmlContent_spec
    (JSVal.obj [("a", .str "plain"), ("b", .arr [.num (.fin 1), .str "text"])])).2
    (by decide)
